import Mathlib

/-!
Verification of the pixeltron pixelation tool (`src/cli.py`) against its
natural-language specification.

The embedding models:
* dimension resolution (`cli.py` lines 29-38),
* PIL nearest-neighbor resizing (`img.resize(..., Image.NEAREST)`, which
  samples source index `trunc((x + 0.5) * srcLen / dstLen)` for output
  index `x`, clamped to the source range),
* default output-path derivation via `os.path.splitext` (posixpath
  semantics: split at the last dot of the final path segment, provided a
  non-dot character precedes it within that segment),
* the load/save error flow of `pixelate_image` and the exit-code /
  printing behaviour of `main`.

Python integers are modelled as `Nat` (all quantities involved are
non-negative); `int(a * b / c)` on positive integers is truncating
division, i.e. `Nat` division. The image codec (PIL decode/encode) is an
external collaborator and is abstracted as a pair of oracles; the
side-effect of saving is recorded as an explicit trace of attempted
writes.
-/

/-- A decoded raster image: a width, a height, and a pixel lookup.
Models a PIL image object; `px` is total for convenience (out-of-range
lookups are never relied upon by the theorems). -/
structure Img (C : Type) where
  width : Nat
  height : Nat
  px : Nat → Nat → C

/-- Dimension resolution, `cli.py` lines 29-38: if both `width` and
`height` are absent, width defaults to 32 and height is
`int(orig_height * width / orig_width)`; if only one is absent it is
derived from the other by the original aspect ratio with truncating
division; if both are given they are used as-is. -/
def resolveDims (ow oh : Nat) (w h : Option Nat) : Nat × Nat :=
  match w, h with
  | none, none => (32, oh * 32 / ow)
  | none, some th => (ow * th / oh, th)
  | some tw, none => (tw, oh * tw / ow)
  | some tw, some th => (tw, th)

/-- Source index sampled by PIL `Image.NEAREST` resizing for output
index `x` when resizing a length-`src` axis to length `dst`:
`trunc((x + 0.5) * src / dst)`, written with exact rational arithmetic
as `(2*x+1) * src / (2 * dst)`, clamped into the source range. -/
def nnIndex (src dst x : Nat) : Nat :=
  min ((2 * x + 1) * src / (2 * dst)) (src - 1)

/-- `img.resize((w, h), Image.NEAREST)`: each output pixel takes the
color of its nearest source sample. -/
def resizeNearest {C : Type} (img : Img C) (w h : Nat) : Img C :=
  ⟨w, h, fun x y => img.px (nnIndex img.width w x) (nnIndex img.height h y)⟩

/-- The pure image pipeline of `pixelate_image` (`cli.py` lines 26-46):
resolve the grid dimensions, downsample to them with nearest-neighbor
sampling, then upsample to `(tw * ppp, th * ppp)` with nearest-neighbor
sampling. -/
def pixelateCore {C : Type} (img : Img C) (w h : Option Nat) (ppp : Nat) : Img C :=
  let d := resolveDims img.width img.height w h
  resizeNearest (resizeNearest img d.1 d.2) (d.1 * ppp) (d.2 * ppp)

/-- Index of the last occurrence of `c` in `p` (Python `str.rfind`,
with `none` for the `-1` not-found result). -/
def rlastIdx (p : List Char) (c : Char) : Option Nat :=
  match p with
  | [] => none
  | a :: rest =>
    match rlastIdx rest c with
    | some i => some (i + 1)
    | none => if a = c then some 0 else none

/-- Start index of the final path segment: `sepIndex + 1` in posixpath
`splitext`, with `rfind` returning `-1` when there is no separator, so
the segment starts at 0. -/
def segStartOf (p : List Char) : Nat :=
  match rlastIdx p '/' with
  | none => 0
  | some s => s + 1

/-- `os.path.splitext` (posixpath): split at the last dot, provided it
lies in the final path segment and some character of that segment
strictly before it is not a dot (the while-loop over
`filenameIndex < dotIndex` in the stdlib source); otherwise the
extension is empty. When the last dot precedes the last separator the
scan range is empty, matching the stdlib's `dotIndex > sepIndex`
guard. -/
def splitext (p : List Char) : List Char × List Char :=
  match rlastIdx p '.' with
  | none => (p, [])
  | some d =>
    if (List.range d).any (fun j => decide (segStartOf p ≤ j) && !(p.getD j '.' == '.')) then
      (p.take d, p.drop d)
    else (p, [])

/-- Default output path, `cli.py` lines 49-51:
`base_name + "_pixelated" + extension`. -/
def defaultOutputPath (p : List Char) : List Char :=
  (splitext p).1 ++ String.toList "_pixelated" ++ (splitext p).2

/-- The extension-splitting rule exactly as claim C4 words it: the
extension starts at the last dot of the final path segment whenever
that segment contains a dot, with no further condition. Stated from the
claim's words so that it can be compared with `splitext`, which is
translated from the code. -/
def claimSplitext (p : List Char) : List Char × List Char :=
  match rlastIdx (p.drop (segStartOf p)) '.' with
  | none => (p, [])
  | some dSeg => (p.take (segStartOf p + dSeg), p.drop (segStartOf p + dSeg))

/-- Default output path as claim C4 words it. -/
def claimDefaultOutputPath (p : List Char) : List Char :=
  (claimSplitext p).1 ++ String.toList "_pixelated" ++ (claimSplitext p).2

/-- The amended extension-splitting rule: as claim C4, but the split at
the last dot of the final segment additionally requires some earlier
character of that segment to be a non-dot; otherwise the extension is
empty. Stated from the amended claim's words, to be compared with
`splitext`. -/
def amendedSplitext (p : List Char) : List Char × List Char :=
  match rlastIdx (p.drop (segStartOf p)) '.' with
  | none => (p, [])
  | some dSeg =>
    if (List.range dSeg).any (fun j => !((p.drop (segStartOf p)).getD j '.' == '.')) then
      (p.take (segStartOf p + dSeg), p.drop (segStartOf p + dSeg))
    else (p, [])

/-- The two failure kinds of `pixelate_image`, each carrying the
underlying cause: `loadError` models the `raise ValueError(...)` that
wraps a decode failure (`cli.py` lines 20-23), `saveError` models the
exception propagating out of `pixelated_img.save` (`cli.py` line 54). -/
inductive PixErr (ε : Type) where
  | loadError : ε → PixErr ε
  | saveError : ε → PixErr ε
deriving DecidableEq

/-- `pixelate_image` (`cli.py` lines 5-56) over abstract codec oracles
`decode` and `encode`. Returns the result (the saved output path, or
the error) paired with the trace of paths on which a save was
attempted. Decode failure aborts before any save is attempted. -/
def pixelate {C ε : Type}
    (decode : List Char → Except ε (Img C))
    (encode : List Char → Img C → Except ε Unit)
    (input : List Char) (output : Option (List Char))
    (w h : Option Nat) (ppp : Nat) :
    Except (PixErr ε) (List Char) × List (List Char) :=
  match decode input with
  | .error e => (.error (.loadError e), [])
  | .ok img =>
    let out := pixelateCore img w h ppp
    let op := output.getD (defaultOutputPath input)
    match encode op out with
    | .error e => (.error (.saveError e), [op])
    | .ok _ => (.ok op, [op])

/-- The message printed for a failure: the load branch raises
`ValueError("Could not open image {input_path}: {e}")`, the save branch
propagates the codec exception unchanged, and `main` prints `str(e)` of
whichever exception reaches it. Causes are modelled as strings
(`List Char`). -/
def errMsg (input : List Char) : PixErr (List Char) → List Char
  | .loadError e => String.toList "Could not open image " ++ input ++ String.toList ": " ++ e
  | .saveError e => e

/-- `main` (`cli.py` lines 58-83) after argument parsing: run
`pixelate_image`; on success print the saved-path message and return 0,
on any exception print `"Error: " + str(e)` and return 1. The result is
the pair (exit code, printed line). -/
def mainRun {C : Type}
    (decode : List Char → Except (List Char) (Img C))
    (encode : List Char → Img C → Except (List Char) Unit)
    (input : List Char) (output : Option (List Char))
    (w h : Option Nat) (ppp : Nat) : Nat × List Char :=
  match (pixelate decode encode input output w h ppp).1 with
  | .ok p => (0, String.toList "Pixelated image saved to: " ++ p)
  | .error e => (1, String.toList "Error: " ++ errMsg input e)

/-- Claim C1: the grid-dimension resolution rules, including the
spec's 100x50-with-target-width-20 example, all with truncating
division. -/
theorem resolveDims_cases (W0 H0 : Nat) (hW : 0 < W0) (hH : 0 < H0)
    (tw th : Nat) (htw : 0 < tw) (hth : 0 < th) :
    resolveDims W0 H0 none none = (32, H0 * 32 / W0) ∧
    resolveDims W0 H0 none (some th) = (W0 * th / H0, th) ∧
    resolveDims W0 H0 (some tw) none = (tw, H0 * tw / W0) ∧
    resolveDims W0 H0 (some tw) (some th) = (tw, th) ∧
    resolveDims 100 50 (some 20) none = (20, 10) :=
  ⟨rfl, rfl, rfl, rfl, rfl⟩

theorem resolveDims_cases_witness :
    resolveDims 100 50 (some 20) none = (20, 10) :=
  (resolveDims_cases 100 50 (by decide) (by decide) 20 10
    (by decide) (by decide)).2.2.2.2

/-- Claim C2: the final output dimensions are exactly
`(tw * scale, th * scale)`; with `scale = 1` they equal `(tw, th)`. -/
theorem pixelate_dims {C : Type} (img : Img C) (w h : Option Nat)
    (s : Nat) (hs : 0 < s) :
    (pixelateCore img w h s).width = (resolveDims img.width img.height w h).1 * s ∧
    (pixelateCore img w h s).height = (resolveDims img.width img.height w h).2 * s ∧
    (s = 1 →
      (pixelateCore img w h s).width = (resolveDims img.width img.height w h).1 ∧
      (pixelateCore img w h s).height = (resolveDims img.width img.height w h).2) := by
  refine ⟨rfl, rfl, fun h1 => ?_⟩
  subst h1
  exact ⟨Nat.mul_one _, Nat.mul_one _⟩

theorem pixelate_dims_witness :
    (pixelateCore (Img.mk 6 4 (fun x y => x + y)) (some 3) none 1).width = 3 ∧
    (pixelateCore (Img.mk 6 4 (fun x y => x + y)) (some 3) none 1).height = 2 :=
  (pixelate_dims (Img.mk 6 4 (fun x y => x + y)) (some 3) none 1
    (by decide)).2.2 rfl

/-- Upsampling a length-`t` axis to length `t * k` with nearest-neighbor
sampling sends every output index inside block `i` back to source index
`i`: `trunc((i*k + a + 0.5) / k) = i` for `a < k`. -/
theorem nnIndex_block (t k i a : Nat) (hi : i < t) (ha : a < k) :
    nnIndex t (t * k) (i * k + a) = i := by
  have ht : 0 < t := Nat.lt_of_le_of_lt (Nat.zero_le i) hi
  have hdiv : (2 * (i * k + a) + 1) * t / (2 * (t * k)) = i := by
    have h2 : 2 * (t * k) = (2 * k) * t := by ring
    rw [h2, Nat.mul_div_mul_right _ _ ht]
    have h1 : 2 * (i * k + a) + 1 = (2 * a + 1) + (2 * k) * i := by ring
    rw [h1, Nat.add_mul_div_left _ _ (by omega : 0 < 2 * k),
      Nat.div_eq_of_lt (by omega), Nat.zero_add]
  unfold nnIndex
  rw [hdiv]
  exact Nat.min_eq_left (by omega)

/-- Claim C3: for `scale = k ≥ 1` the output has dimensions
`(tw*k, th*k)` and every pixel of the `k × k` block covering grid cell
`(i, j)` equals that cell's nearest-neighbor sample in the downsampled
`tw × th` image. -/
theorem pixelate_uniform_blocks {C : Type} (img : Img C) (w h : Option Nat)
    (k : Nat) (hk : 1 ≤ k) (i j a b : Nat)
    (hi : i < (resolveDims img.width img.height w h).1)
    (hj : j < (resolveDims img.width img.height w h).2)
    (ha : a < k) (hb : b < k) :
    (pixelateCore img w h k).width = (resolveDims img.width img.height w h).1 * k ∧
    (pixelateCore img w h k).height = (resolveDims img.width img.height w h).2 * k ∧
    (pixelateCore img w h k).px (i * k + a) (j * k + b) =
      (resizeNearest img (resolveDims img.width img.height w h).1
        (resolveDims img.width img.height w h).2).px i j := by
  refine ⟨rfl, rfl, ?_⟩
  show (resizeNearest img _ _).px
      (nnIndex (resolveDims img.width img.height w h).1
        ((resolveDims img.width img.height w h).1 * k) (i * k + a))
      (nnIndex (resolveDims img.width img.height w h).2
        ((resolveDims img.width img.height w h).2 * k) (j * k + b)) = _
  rw [nnIndex_block _ _ _ _ hi ha, nnIndex_block _ _ _ _ hj hb]

theorem pixelate_uniform_blocks_witness :
    (pixelateCore (Img.mk 2 1 (fun x _ => x)) (some 2) (some 1) 2).px
        (1 * 2 + 0) (0 * 2 + 1) =
      (resizeNearest (Img.mk 2 1 (fun x _ => x))
        (resolveDims 2 1 (some 2) (some 1)).1
        (resolveDims 2 1 (some 2) (some 1)).2).px 1 0 :=
  (pixelate_uniform_blocks (Img.mk 2 1 (fun x _ => x)) (some 2) (some 1) 2
    (by decide) 1 0 0 1 (by decide) (by decide) (by decide) (by decide)).2.2

/-- The last occurrence of `c` in `p.drop n` is the last occurrence in
`p` when that lies at or beyond `n`, shifted by `n`; otherwise there is
none. -/
theorem rlastIdx_drop (p : List Char) (c : Char) (n : Nat) :
    rlastIdx (p.drop n) c =
      match rlastIdx p c with
      | none => none
      | some d => if n ≤ d then some (d - n) else none := by
  induction p generalizing n with
  | nil => simp [rlastIdx]
  | cons a rest ih =>
    cases n with
    | zero =>
      simp only [List.drop_zero]
      cases hr : rlastIdx (a :: rest) c with
      | none => rfl
      | some d => simp
    | succ m =>
      simp only [List.drop_succ_cons]
      rw [ih m]
      cases hr : rlastIdx rest c with
      | some i =>
        simp only [rlastIdx, hr]
        by_cases hm : m ≤ i
        · rw [if_pos hm, if_pos (by omega)]
          congr 1
          omega
        · rw [if_neg hm, if_neg (by omega)]
      | none =>
        simp only [rlastIdx, hr]
        by_cases hac : a = c
        · simp [hac]
        · simp [hac]

/-- Reading a dropped list at `j` reads the original at `n + j`. -/
theorem getD_drop' (p : List Char) (n j : Nat) (d : Char) :
    (p.drop n).getD j d = p.getD (n + j) d := by
  simp [List.getD_eq_getElem?_getD, List.getElem?_drop]

/-- Scanning `[fi, d)` for a witness equals scanning the shifted range
`[0, d - fi)`. -/
theorem any_range_shift (P : Nat → Bool) (fi d : Nat) (hfd : fi ≤ d) :
    (List.range d).any (fun j => decide (fi ≤ j) && P j) =
    (List.range (d - fi)).any (fun j => P (fi + j)) := by
  rw [Bool.eq_iff_iff]
  simp only [List.any_eq_true, List.mem_range, Bool.and_eq_true, decide_eq_true_eq]
  constructor
  · rintro ⟨j, hj, hfi, hP⟩
    exact ⟨j - fi, by omega, by rwa [Nat.add_sub_cancel' hfi]⟩
  · rintro ⟨j, hj, hP⟩
    exact ⟨fi + j, by omega, by omega, hP⟩

/-- A scan over `[fi, d)` with `d ≤ fi` finds nothing. -/
theorem any_range_false (P : Nat → Bool) (fi d : Nat) (hfd : d ≤ fi) :
    (List.range d).any (fun j => decide (fi ≤ j) && P j) = false := by
  cases h : (List.range d).any (fun j => decide (fi ≤ j) && P j) with
  | false => rfl
  | true =>
    exfalso
    obtain ⟨j, hj, hcond⟩ := List.any_eq_true.mp h
    rw [List.mem_range] at hj
    simp only [Bool.and_eq_true, decide_eq_true_eq] at hcond
    omega

/-- The code's `splitext` agrees everywhere with the amended
segment-based description. -/
theorem splitext_eq_amended (p : List Char) : splitext p = amendedSplitext p := by
  unfold splitext amendedSplitext
  cases hd : rlastIdx p '.' with
  | none => simp [rlastIdx_drop, hd]
  | some d =>
    by_cases hfd : segStartOf p ≤ d
    · simp only [rlastIdx_drop, hd, if_pos hfd]
      rw [any_range_shift _ _ _ hfd]
      have harg : (fun j => !((p.drop (segStartOf p)).getD j '.' == '.')) =
          (fun j => !(p.getD (segStartOf p + j) '.' == '.')) := by
        funext j
        rw [getD_drop']
      rw [harg, Nat.add_sub_cancel' hfd]
    · simp only [rlastIdx_drop, hd, if_neg hfd]
      rw [any_range_false _ _ _ (by omega)]
      simp

/-- Counterexample to claim C4 as stated: for input `".bashrc"` the
code keeps the whole name as the base (`os.path.splitext` yields no
extension for a leading-dot-only segment), while the claim's rule
splits at the dot; the two derived output paths differ. -/
theorem defaultOutputPath_claim_cex :
    defaultOutputPath (String.toList ".bashrc") = String.toList ".bashrc_pixelated" ∧
    claimDefaultOutputPath (String.toList ".bashrc") = String.toList "_pixelated.bashrc" ∧
    defaultOutputPath (String.toList ".bashrc") ≠
      claimDefaultOutputPath (String.toList ".bashrc") :=
  ⟨by decide, by decide, by decide⟩

/-- Claim C4 (amended): the default output path is
`base + "_pixelated" + ext` where the extension starts at the last dot
of the final path segment provided some earlier character of that
segment is not a dot (and is empty otherwise); in particular
`"photo.jpg"` yields `"photo_pixelated.jpg"` and `"photo"` yields
`"photo_pixelated"`. -/
theorem defaultOutputPath_spec (p : List Char) :
    defaultOutputPath p =
      (amendedSplitext p).1 ++ String.toList "_pixelated" ++ (amendedSplitext p).2 ∧
    defaultOutputPath (String.toList "photo.jpg") = String.toList "photo_pixelated.jpg" ∧
    defaultOutputPath (String.toList "photo") = String.toList "photo_pixelated" := by
  refine ⟨?_, by decide, by decide⟩
  unfold defaultOutputPath
  rw [splitext_eq_amended]

/-- Claim C9: default output-path derivation is a pure deterministic
function of the input path alone — equal inputs always derive equal
output paths. -/
theorem defaultOutputPath_deterministic (p₁ p₂ : List Char) (h : p₁ = p₂) :
    defaultOutputPath p₁ = defaultOutputPath p₂ :=
  congrArg defaultOutputPath h

theorem defaultOutputPath_deterministic_witness :
    defaultOutputPath (String.toList "photo.jpg") =
      defaultOutputPath (String.toList "photo.jpg") :=
  defaultOutputPath_deterministic (String.toList "photo.jpg")
    (String.toList "photo.jpg") rfl

/-- Claim C5: when decoding the input fails, `pixelate_image` fails
with the load-error kind carrying the original cause. -/
theorem pixelate_load_error {C ε : Type}
    (decode : List Char → Except ε (Img C))
    (encode : List Char → Img C → Except ε Unit)
    (input : List Char) (output : Option (List Char))
    (w h : Option Nat) (ppp : Nat) (e : ε)
    (hdec : decode input = .error e) :
    (pixelate decode encode input output w h ppp).1 = .error (.loadError e) := by
  unfold pixelate
  rw [hdec]

theorem pixelate_load_error_witness :
    (pixelate
      (fun _ => Except.error (String.toList "missing file") :
        List Char → Except (List Char) (Img Nat))
      (fun _ _ => Except.ok ())
      (String.toList "gone.png") none none none 1).1 =
      Except.error (PixErr.loadError (String.toList "missing file")) :=
  pixelate_load_error _ _ (String.toList "gone.png") none none none 1
    (String.toList "missing file") rfl

/-- Claim C6: when encoding/writing the output fails, `pixelate_image`
surfaces the failure as the save-error kind carrying the original
cause. -/
theorem pixelate_save_error {C ε : Type}
    (decode : List Char → Except ε (Img C))
    (encode : List Char → Img C → Except ε Unit)
    (input : List Char) (output : Option (List Char))
    (w h : Option Nat) (ppp : Nat) (img : Img C) (e : ε)
    (hdec : decode input = .ok img)
    (henc : encode (output.getD (defaultOutputPath input))
      (pixelateCore img w h ppp) = .error e) :
    (pixelate decode encode input output w h ppp).1 = .error (.saveError e) := by
  unfold pixelate
  rw [hdec]
  simp only [henc]

theorem pixelate_save_error_witness :
    (pixelate
      (fun _ => Except.ok (Img.mk 1 1 (fun _ _ => 0)) :
        List Char → Except (List Char) (Img Nat))
      (fun _ _ => Except.error (String.toList "disk full"))
      (String.toList "in.png") none none none 1).1 =
      Except.error (PixErr.saveError (String.toList "disk full")) :=
  pixelate_save_error _ _ (String.toList "in.png") none none none 1
    (Img.mk 1 1 (fun _ _ => 0)) (String.toList "disk full") rfl rfl

/-- Claim C7: a decode failure aborts the run before any save is
attempted — the result is the load error and the write trace is
empty. -/
theorem pixelate_no_write_on_load_error {C ε : Type}
    (decode : List Char → Except ε (Img C))
    (encode : List Char → Img C → Except ε Unit)
    (input : List Char) (output : Option (List Char))
    (w h : Option Nat) (ppp : Nat) (e : ε)
    (hdec : decode input = .error e) :
    (pixelate decode encode input output w h ppp).1 = .error (.loadError e) ∧
    (pixelate decode encode input output w h ppp).2 = [] := by
  unfold pixelate
  rw [hdec]
  exact ⟨rfl, rfl⟩

theorem pixelate_no_write_on_load_error_witness :
    (pixelate
      (fun _ => Except.error (String.toList "no such file") :
        List Char → Except (List Char) (Img Nat))
      (fun _ _ => Except.ok ())
      (String.toList "absent.jpg") none (some 8) none 2).2 = [] :=
  (pixelate_no_write_on_load_error _ _ (String.toList "absent.jpg") none
    (some 8) none 2 (String.toList "no such file") rfl).2

/-- Claim C8: the command-line layer returns exit code 0 with the
saved-path message on success, exit code 1 with the error message on
any failure, and no other exit code occurs. -/
theorem mainRun_exit_codes {C : Type}
    (decode : List Char → Except (List Char) (Img C))
    (encode : List Char → Img C → Except (List Char) Unit)
    (input : List Char) (output : Option (List Char))
    (w h : Option Nat) (ppp : Nat) :
    (∀ p, (pixelate decode encode input output w h ppp).1 = .ok p →
      mainRun decode encode input output w h ppp =
        (0, String.toList "Pixelated image saved to: " ++ p)) ∧
    (∀ e, (pixelate decode encode input output w h ppp).1 = .error e →
      mainRun decode encode input output w h ppp =
        (1, String.toList "Error: " ++ errMsg input e)) ∧
    ((mainRun decode encode input output w h ppp).1 = 0 ∨
      (mainRun decode encode input output w h ppp).1 = 1) := by
  unfold mainRun
  cases hr : (pixelate decode encode input output w h ppp).1 with
  | ok p =>
    refine ⟨fun q hq => ?_, fun f hf => ?_, Or.inl rfl⟩
    · injection hq with hpq
      rw [hpq]
    · exact Except.noConfusion hf
  | error e =>
    refine ⟨fun q hq => Except.noConfusion hq, fun f hf => ?_, Or.inr rfl⟩
    injection hf with hef
    rw [hef]

theorem mainRun_exit_codes_witness :
    mainRun
      (fun _ => Except.ok (Img.mk 4 2 (fun _ _ => 7)) :
        List Char → Except (List Char) (Img Nat))
      (fun _ _ => Except.ok ())
      (String.toList "a.png") none none none 1 =
      (0, String.toList "Pixelated image saved to: " ++
        defaultOutputPath (String.toList "a.png")) :=
  (mainRun_exit_codes
    (fun _ => Except.ok (Img.mk 4 2 (fun _ _ => 7)))
    (fun _ _ => Except.ok ())
    (String.toList "a.png") none none none 1).1
    (defaultOutputPath (String.toList "a.png")) rfl

/-- Claim C10: the scale argument does not interfere with dimension
resolution or path derivation — two successful runs differing only in
the scale return the same output path, and each run's final dimensions
are the scale-independent resolved grid times its own scale. -/
theorem pixelate_scale_noninterference {C D ε : Type}
    (decode : List Char → Except ε (Img C))
    (encode : List Char → Img C → Except ε Unit)
    (img : Img D) (input : List Char) (output : Option (List Char))
    (w h : Option Nat) (s₁ s₂ : Nat) (p₁ p₂ : List Char)
    (h₁ : (pixelate decode encode input output w h s₁).1 = .ok p₁)
    (h₂ : (pixelate decode encode input output w h s₂).1 = .ok p₂) :
    p₁ = p₂ ∧
    (pixelateCore img w h s₁).width = (resolveDims img.width img.height w h).1 * s₁ ∧
    (pixelateCore img w h s₂).width = (resolveDims img.width img.height w h).1 * s₂ ∧
    (pixelateCore img w h s₁).height = (resolveDims img.width img.height w h).2 * s₁ ∧
    (pixelateCore img w h s₂).height = (resolveDims img.width img.height w h).2 * s₂ := by
  refine ⟨?_, rfl, rfl, rfl, rfl⟩
  unfold pixelate at h₁ h₂
  cases hdec : decode input with
  | error e =>
    rw [hdec] at h₁
    exact Except.noConfusion h₁
  | ok im =>
    rw [hdec] at h₁ h₂
    simp only [] at h₁ h₂
    cases henc1 : encode (output.getD (defaultOutputPath input)) (pixelateCore im w h s₁) with
    | error e =>
      rw [henc1] at h₁
      exact Except.noConfusion h₁
    | ok u =>
      rw [henc1] at h₁
      cases henc2 : encode (output.getD (defaultOutputPath input)) (pixelateCore im w h s₂) with
      | error e =>
        rw [henc2] at h₂
        exact Except.noConfusion h₂
      | ok v =>
        rw [henc2] at h₂
        injection h₁ with he₁
        injection h₂ with he₂
        rw [← he₁, ← he₂]

theorem pixelate_scale_noninterference_witness :
    defaultOutputPath (String.toList "b.png") =
      defaultOutputPath (String.toList "b.png") ∧
    (pixelateCore (Img.mk 8 4 (fun x y => x * y)) none none 1).width =
      (resolveDims 8 4 none none).1 * 1 ∧
    (pixelateCore (Img.mk 8 4 (fun x y => x * y)) none none 3).width =
      (resolveDims 8 4 none none).1 * 3 ∧
    (pixelateCore (Img.mk 8 4 (fun x y => x * y)) none none 1).height =
      (resolveDims 8 4 none none).2 * 1 ∧
    (pixelateCore (Img.mk 8 4 (fun x y => x * y)) none none 3).height =
      (resolveDims 8 4 none none).2 * 3 :=
  pixelate_scale_noninterference
    (fun _ => Except.ok (Img.mk 8 4 (fun x y => x * y)) :
      List Char → Except (List Char) (Img Nat))
    (fun _ _ => Except.ok ())
    (Img.mk 8 4 (fun x y => x * y))
    (String.toList "b.png") none none none 1 3
    (defaultOutputPath (String.toList "b.png"))
    (defaultOutputPath (String.toList "b.png")) rfl rfl
